import Mathlib

/-!
Verification development for the Machinecraft inventory consolidation pipeline.

The Python sources are shallowly embedded as executable Lean definitions:

* `Item`, `keysOf`, `buildGroups`, `resolveGroup`, `deduplicate_items` embed
  `EnhancedInventoryConsolidator.deduplicate_items`
  (enhanced_inventory_consolidator.py, lines 388-428);
* `clean_price` embeds `EnhancedInventoryConsolidator.clean_price` (lines 44-71);
* the Silver-layer generated columns, Bronze ingestion, `populate_silver`
  and `categorize_item` are embedded further below.

Python floats are modelled as `Rat` (every numeric literal appearing in the
claims is exactly representable, and the operations used - comparison, `max`,
multiplication by an integer - introduce no rounding at the scales involved).
Python exceptions are modelled with `Except`; `None`/`NaN` cell values with
`Option`.  String lowering is ASCII (`Char.toLower`), which agrees with
Python `str.lower` on every string appearing in the development.
-/

namespace MachInv

/-- Python substring test `needle in hay`, on character lists. -/
def listInfix (needle : List Char) : List Char → Bool
  | [] => needle.isEmpty
  | c :: rest => needle.isPrefixOf (c :: rest) || listInfix needle rest

/-- Python substring test `needle in hay` for strings. -/
def isSub (needle hay : String) : Bool :=
  listInfix needle.toList hay.toList

/-- Whitespace characters stripped by Python `str.strip()` (ASCII set; the
strings of this development contain no other whitespace). -/
def isPySpace (c : Char) : Bool :=
  c == ' ' || c == '\t' || c == '\n' || c == '\r' || c == '\x0b' || c == '\x0c'

/-- Python `str.lower()` (ASCII case mapping, which agrees with Python on
every string in this development).  Defined through the character list so
that it reduces inside the kernel. -/
def pyLower (s : String) : String :=
  ⟨s.data.map Char.toLower⟩

/-- Python `str.strip()`: remove leading and trailing whitespace. -/
def pyStrip (s : String) : String :=
  ⟨((s.data.dropWhile isPySpace).reverse.dropWhile isPySpace).reverse⟩

/-- One consolidated inventory item, as built by
`EnhancedInventoryConsolidator.process_excel_file` (the `item` dict,
enhanced_inventory_consolidator.py lines 360-371). -/
structure Item where
  part_number : String
  description : String
  brand : String
  price_inr : Rat
  quantity : Int
  min_stock : Int
  category : String
  source_file : String
  source_sheet : String
  source_path : String
deriving DecidableEq, Repr, Inhabited

/-- The dedup keys of one item (enhanced_inventory_consolidator.py lines
397-409).  Python truthiness of a string is non-emptiness; each key is the
formatted string passed through `.lower().strip()`. -/
def keysOf (item : Item) : List String :=
  (if item.part_number ≠ "" ∧ item.description ≠ "" then
      [pyStrip (pyLower (item.part_number ++ "_" ++ item.description))] else []) ++
  (if item.part_number ≠ "" then [pyStrip (pyLower item.part_number)] else []) ++
  (if item.description ≠ "" ∧ item.part_number = "" then
      [pyStrip (pyLower ("desc_" ++ item.description))] else [])

/-- `grouped[key].append(item)`, creating the key on first use, preserving the
insertion order of keys (a Python dict preserves insertion order). -/
def addToGroup : List (String × List Item) → String → Item → List (String × List Item)
  | [], key, item => [(key, [item])]
  | (k, g) :: rest, key, item =>
      if k = key then (k, g ++ [item]) :: rest
      else (k, g) :: addToGroup rest key item

/-- Insert one item into the group of each of its keys (lines 412-415). -/
def addItemKeys (gs : List (String × List Item)) (item : Item) :
    List (String × List Item) :=
  (keysOf item).foldl (fun a k => addToGroup a k item) gs

/-- The grouping loop of `deduplicate_items` (lines 395-415). -/
def buildGroupsAux (gs : List (String × List Item)) :
    List Item → List (String × List Item)
  | [] => gs
  | item :: rest => buildGroupsAux (addItemKeys gs item) rest

/-- `grouped` after the grouping loop, as an insertion-ordered association
list. -/
def buildGroups (items : List Item) : List (String × List Item) :=
  buildGroupsAux [] items

/-- `items.sort(key=lambda x: x['price_inr'], reverse=True)`: a stable sort by
price, descending.  Python's list.sort is stable (with `reverse=True`, equal
elements keep their original order), so any stable sort models it; we use
Mathlib's insertion sort with the relation "comes no later because its price
is no smaller". -/
def sortByPriceDesc (l : List Item) : List Item :=
  l.insertionSort (fun a b => b.price_inr ≤ a.price_inr)

/-- Group resolution (lines 419-425): a single member survives as is,
otherwise the group is sorted by price descending (stably) and the first
element is kept.  `none` for an empty group (never built). -/
def resolveGroup : List Item → Option Item
  | [] => none
  | [x] => some x
  | g => (sortByPriceDesc g).head?

/-- `deduplicate_items` (enhanced_inventory_consolidator.py lines 388-428):
the resolved winner of each group, in group-insertion order. -/
def deduplicate_items (items : List Item) : List Item :=
  (buildGroups items).filterMap (fun g => resolveGroup g.2)

/-- The first element of maximal price of a list (the element a stable
descending sort puts first). -/
def firstMax : List Item → Option Item
  | [] => none
  | a :: l =>
      match firstMax l with
      | none => some a
      | some w => if a.price_inr < w.price_inr then some w else some a

/-- Item shorthand used by the concrete examples of the claims: only
part number, description and price matter to deduplication. -/
def mkItem (p d : String) (pr : Rat) : Item :=
  { part_number := p, description := d, brand := "", price_inr := pr,
    quantity := 0, min_stock := 0, category := "", source_file := "",
    source_sheet := "", source_path := "" }

/-- The spec's dedup example item `{part="X1", desc="Widget", price=100}`. -/
def c1a : Item := mkItem "X1" "Widget" 100

/-- The spec's dedup example item `{part="X1", desc="Widget", price=150}`. -/
def c1b : Item := mkItem "X1" "Widget" 150

/-- Dedup non-idempotence example: `{part="k", desc="d", price=0}`. -/
def c6z : Item := mkItem "k" "d" 0

/-- Dedup non-idempotence example: `{part="k", desc="e", price=5}`. -/
def c6w : Item := mkItem "k" "e" 5

/-- Dedup non-idempotence example: `{part="k", desc="d", price=5}`. -/
def c6x : Item := mkItem "k" "d" 5

/-! ### Field cleaner `clean_price`
(enhanced_inventory_consolidator.py lines 44-71) -/

/-- Numeric value of a digit string. -/
def digitsVal (cs : List Char) : Nat :=
  cs.foldl (fun n c => 10 * n + (c.toNat - '0'.toNat)) 0

/-- Unsigned part of a Python float literal: digits with at most one decimal
point and at least one digit on either side of it.  (After the currency and
letter stripping of `clean_price` no exponent, `inf`, `nan` or underscore
form can remain, so this covers every string Python's `float` is given
there.) -/
def parseUnsigned (cs : List Char) : Option Rat :=
  let intPart := cs.takeWhile Char.isDigit
  let rest := cs.dropWhile Char.isDigit
  match rest with
  | [] => if intPart.isEmpty then none else some (digitsVal intPart)
  | '.' :: frac =>
      if frac.all Char.isDigit ∧ (intPart ≠ [] ∨ frac ≠ []) then
        some ((digitsVal intPart : Rat) + (digitsVal frac : Rat) / ((10 : Rat) ^ frac.length))
      else none
  | _ => none

/-- Python `float(s)` on the strings reachable inside `clean_price`;
`.error` models a raised `ValueError`. -/
def pyFloat (s : String) : Except String Rat :=
  match s.data with
  | '+' :: cs =>
      match parseUnsigned cs with
      | some r => .ok r
      | none => .error "ValueError"
  | '-' :: cs =>
      match parseUnsigned cs with
      | some r => .ok (-r)
      | none => .error "ValueError"
  | cs =>
      match parseUnsigned cs with
      | some r => .ok r
      | none => .error "ValueError"

/-- Characters removed by `re.sub(r'[₹$€£,₹\s]', '', …)`. -/
def isCurrencyOrSpace (c : Char) : Bool :=
  c == '₹' || c == '$' || c == '€' || c == '£' || c == ',' || isPySpace c

/-- Characters removed by `re.sub(r'[a-zA-Z\s]', '', …)`. -/
def isLetterOrSpace (c : Char) : Bool :=
  (('a' ≤ c && c ≤ 'z') || ('A' ≤ c && c ≤ 'Z')) || isPySpace c

/-- `re.sub(r'[₹$€£,₹\s]', '', s)`. -/
def stripCurrency (s : String) : String :=
  ⟨s.data.filter (fun c => !(isCurrencyOrSpace c))⟩

/-- `re.sub(r'[a-zA-Z\s]', '', s)`. -/
def stripLetters (s : String) : String :=
  ⟨s.data.filter (fun c => !(isLetterOrSpace c))⟩

/-- The price string after `strip()` and the two `re.sub` passes. -/
def strippedPrice (s : String) : String :=
  stripLetters (stripCurrency (pyStrip s))

/-- Python `s.split(sep)` for a single-character separator. -/
def splitOnChar (c : Char) : List Char → List (List Char)
  | [] => [[]]
  | x :: rest =>
      let r := splitOnChar c rest
      if x == c then [] :: r
      else
        match r with
        | [] => [[x]]
        | h :: t => (x :: h) :: t

/-- `price_str.replace('(', '-').replace(')', '')`. -/
def parenNegate (s : String) : String :=
  ⟨(s.data.map (fun c => if c == '(' then '-' else c)).filter (fun c => c != ')')⟩

/-- The `stock_status` generated column of `silver_inventory_items`
(inventory_data_pipeline.py lines 167-173): the SQL CASE tests
`quantity <= min_stock` before `quantity = 0`. -/
def stock_status (quantity min_stock : Int) : String :=
  if quantity ≤ min_stock then "Low Stock"
  else if quantity = 0 then "Out of Stock"
  else "In Stock"

/-- The `price_range` generated column (inventory_data_pipeline.py lines
174-180). -/
def price_range (unit_price_inr : Rat) : String :=
  if unit_price_inr > 10000 then "High (>₹10K)"
  else if unit_price_inr > 1000 then "Medium (₹1K-10K)"
  else "Low (<₹1K)"

/-- The stock status computed by `create_ai_validated_excel`
(ai_powered_inventory_consolidator.py line 449): `'Low Stock' if
x['quantity'] <= x['min_stock'] else 'In Stock'` — no out-of-stock case at
all. -/
def ai_stock_status (quantity min_stock : Int) : String :=
  if quantity ≤ min_stock then "Low Stock" else "In Stock"

/-- The columns supplied by the repository's INSERT statements into
`silver_inventory_items` (inventory_data_pipeline.py lines 265-284,
populate_silver.py lines 206-216).  No writer ever supplies the generated
columns. -/
structure SilverFields where
  part_number : String
  description : String
  brand : String
  category : String
  unit_price_inr : Rat
  quantity : Int
  min_stock : Int
  source_file : String
  source_sheet : String
  ai_confidence : String
  validation_status : String
deriving DecidableEq, Repr, Inhabited

/-- A stored row of `silver_inventory_items`, including the
`GENERATED ALWAYS … STORED` columns of the schema. -/
structure SilverRow extends SilverFields where
  total_value_inr : Rat
  stock_status : String
  price_range : String
deriving DecidableEq, Repr, Inhabited

/-- Row construction as SQLite performs an INSERT: the generated columns
`total_value_inr`, `stock_status` and `price_range` are computed from the
inserted columns (inventory_data_pipeline.py lines 166-180) and cannot be
supplied by the writer. -/
def mkSilverRow (f : SilverFields) : SilverRow :=
  { f with
    total_value_inr := f.unit_price_inr * (f.quantity : Rat),
    stock_status := stock_status f.quantity f.min_stock,
    price_range := price_range f.unit_price_inr }

/-- The write operations the repository performs on
`silver_inventory_items`: row INSERTs and
`DELETE FROM silver_inventory_items` (populate_silver.py line 17,
fix_silver_database.py line 19).  No UPDATE of price or quantity exists. -/
inductive SilverOp where
  | insert (f : SilverFields)
  | deleteAll
deriving DecidableEq, Repr

def applySilverOp : List SilverRow → SilverOp → List SilverRow
  | s, .insert f => s ++ [mkSilverRow f]
  | _, .deleteAll => []

/-- The Silver table reached by an operation history, starting from the
empty table created by `create_silver_schema`. -/
def runSilverOps (ops : List SilverOp) : List SilverRow :=
  ops.foldl applySilverOp []

/-- Example inserted fields used by concrete witnesses. -/
def sf0 : SilverFields :=
  { part_number := "VUVG-L10", description := "solenoid valve",
    brand := "FESTO", category := "Pneumatic Components",
    unit_price_inr := 2500, quantity := 10, min_stock := 2,
    source_file := "FESTO_pricelist.xlsx", source_sheet := "Sheet1",
    ai_confidence := "high", validation_status := "validated" }

/-- `clean_price` (enhanced_inventory_consolidator.py lines 44-71).  The
argument is `none` for a missing value (`pd.isna`), otherwise the raw cell
as a string.  `.error` would mean a Python exception escaping `clean_price`;
the bare `try/except` blocks of the source are modelled by the explicit
matches that turn a `pyFloat` failure (or a missing list index, Python's
`IndexError`) into `.ok 0`. -/
def clean_price (raw : Option String) : Except String Rat :=
  match raw with
  | none => .ok 0
  | some s0 =>
      if s0 = "" then .ok 0
      else
        if (strippedPrice s0).data.contains '-' then
          match (splitOnChar '-' (strippedPrice s0).data).map
              (fun cs => (⟨cs⟩ : String)) with
          | p0 :: p1 :: _ =>
              match pyFloat p0, pyFloat p1 with
              | .ok r0, .ok r1 => .ok (max r0 r1)
              | _, _ => .ok 0
          | _ => .ok 0
        else
          if (strippedPrice s0).data.contains '(' &&
              (strippedPrice s0).data.contains ')' then
            match pyFloat (parenNegate (strippedPrice s0)) with
            | .ok r => .ok r
            | .error _ => .ok 0
          else
            match pyFloat (strippedPrice s0) with
            | .ok r => .ok r
            | .error _ => .ok 0

/-! ### Bronze ingestion (inventory_data_pipeline.py lines 41-150) -/

/-- The value stored in the UNIQUE `data_hash` column of
`bronze_inventory_raw`: the md5 of the file bytes on the normal path
(line 82), but the md5 of the file PATH string on the error path
(line 143).  md5 is modelled as an injective tag (collision-free). -/
inductive DataHash where
  | ofContent (bytes : String)
  | ofPath (path : String)
deriving DecidableEq, Repr

/-- A discovered source file: its path and its byte content; `content =
none` models a file whose open/read raises (unreadable or corrupt). -/
structure SrcFile where
  path : String
  content : Option String
deriving DecidableEq, Repr

/-- One row of `bronze_inventory_raw` (the columns the claims concern;
`raw_data`, timestamps and sizes are not modelled). -/
structure BronzeRecord where
  source_file : String
  data_hash : DataHash
  processing_status : String
deriving DecidableEq, Repr

/-- `Path(p).name`: the last path component. -/
def pathName (p : String) : String :=
  ⟨(splitOnChar '/' p.data).getLastD []⟩

/-- Skip patterns of the ingestion loop (inventory_data_pipeline.py
line 77). -/
def bronzeSkipPatterns : List String := ["template", "backup", "copy", "old"]

/-- One iteration of the ingestion loop (inventory_data_pipeline.py lines
74-146).  A returned `.error` models an exception escaping the loop body:
the only possible one is the UNIQUE-constraint violation raised by the
INSERT inside the `except` handler (line 136), which the source does not
wrap in any further `try`.  On the normal path the hash is looked up first
(lines 85-91), so that INSERT cannot violate the constraint. -/
def ingestOne (s : List BronzeRecord) (f : SrcFile) :
    Except String (List BronzeRecord) :=
  if bronzeSkipPatterns.any (fun p => isSub p (pyLower (pathName f.path))) then
    .ok s
  else
    match f.content with
    | some bytes =>
        if s.any (fun r => r.data_hash == DataHash.ofContent bytes) then .ok s
        else .ok (s ++ [⟨f.path, DataHash.ofContent bytes, "ingested"⟩])
    | none =>
        if s.any (fun r => r.data_hash == DataHash.ofPath f.path) then
          .error "UNIQUE constraint failed: bronze_inventory_raw.data_hash"
        else .ok (s ++ [⟨f.path, DataHash.ofPath f.path, "error"⟩])

/-- `ingest_excel_files`: the ingestion loop over the discovered files.  An
exception escaping one iteration aborts the whole loop (and with it the
pipeline run). -/
def ingest_excel_files (s : List BronzeRecord) :
    List SrcFile → Except String (List BronzeRecord)
  | [] => .ok s
  | f :: fs =>
      match ingestOne s f with
      | .ok s' => ingest_excel_files s' fs
      | .error e => .error e

/-- Number of Bronze records carrying a given hash. -/
def countHash (s : List BronzeRecord) (h : DataHash) : Nat :=
  (s.filter (fun r => r.data_hash == h)).length

/-- An unreadable source file, for the C9 failing input. -/
def badFile : SrcFile := ⟨"inventory/corrupt.xlsx", none⟩

/-- The Bronze record the error handler stores for `badFile` on its first
ingestion. -/
def badRecord : BronzeRecord :=
  ⟨"inventory/corrupt.xlsx", DataHash.ofPath "inventory/corrupt.xlsx", "error"⟩

/-- A readable source file used by the C4 witness. -/
def goodFile : SrcFile := ⟨"inventory/FESTO_pricelist.xlsx", some "FESTO-BYTES"⟩

/-! ### Silver rebuild `populate_silver` (populate_silver.py) -/

/-- One sheet of a Bronze record's `raw_data`: its name and its rows, each
row an ordered mapping column name → cell value (`none` models NaN / a key
the row lacks). -/
structure BronzeSheet where
  name : String
  data : List (List (String × Option String))
deriving DecidableEq, Repr

/-- One Bronze record as read back by `populate_silver` (source file path
and parsed `raw_data`). -/
structure BronzeFileData where
  source_file : String
  sheets : List BronzeSheet
deriving DecidableEq, Repr

/-- `pd.DataFrame(rows).columns`: column names in order of first
appearance. -/
def dfColumns (data : List (List (String × Option String))) : List String :=
  data.foldl
    (fun cols row => row.foldl
      (fun cols kv => if cols.contains kv.1 then cols else cols ++ [kv.1]) cols)
    []

/-- `row_data[col]` of a pandas row: the stored value, or NaN (`none`) when
the row lacks the column. -/
def rowGet (row : List (String × Option String)) (col : String) : Option String :=
  match row.find? (fun kv => kv.1 == col) with
  | some kv => kv.2
  | none => none

/-- Python `str(…)` of a possibly-missing cell: NaN prints as "nan". -/
def pyStr : Option String → String
  | some v => v
  | none => "nan"

/-- `Path(p).stem`: the last path component without its final suffix (a
lone leading dot is not a suffix). -/
def pathStem (p : String) : String :=
  let nm := (pathName p).data
  let rev := nm.reverse
  if rev.contains '.' then
    let stemRev := (rev.dropWhile (fun c => c != '.')).drop 1
    if stemRev.isEmpty then ⟨nm⟩ else ⟨stemRev.reverse⟩
  else ⟨nm⟩

/-- Column-name keywords of the part-number scan (populate_silver.py
line 129). -/
def partKws : List String := ["part", "item no", "model", "sku", "code"]

/-- Column-name keywords of the description scan (line 137). -/
def descKws : List String := ["description", "desc", "name", "item description"]

/-- Column-name keywords of the price scan (line 145). -/
def priceKws : List String := ["price", "cost", "rate", "value", "amount", "rs", "inr"]

/-- Column-name keywords of the quantity scan (line 160). -/
def qtyKws : List String := ["qty", "quantity", "stock", "available"]

/-- Column-name keywords of the min-stock scan (line 171). -/
def minKws : List String := ["min", "maintain", "reorder", "to maintain"]

/-- The part-number / description column scan (populate_silver.py lines
128-141): the first keyword-matching column holding a usable value wins;
a matching column with an empty/nan/None value does not stop the scan. -/
def findTextField (kws : List String) (row : List (String × Option String)) :
    List String → String
  | [] => ""
  | c :: rest =>
      if kws.any (fun k => isSub k (pyLower c)) then
        let v := pyStrip (pyStr (rowGet row c))
        if v ≠ "" ∧ v ≠ "nan" ∧ v ≠ "None" then v
        else findTextField kws row rest
      else findTextField kws row rest

/-- The price column scan (lines 143-156): the raw value is stripped of
currency symbols and letters; an empty cleaned value breaks with price 0, a
`float` failure is caught and the scan continues with the next column. -/
def findPriceField (row : List (String × Option String)) : List String → Rat
  | [] => 0
  | c :: rest =>
      if priceKws.any (fun k => isSub k (pyLower c)) then
        let v := pyStrip (pyStr (rowGet row c))
        if v ≠ "" ∧ v ≠ "nan" ∧ v ≠ "None" then
          let v2 := stripLetters (stripCurrency v)
          if v2 ≠ "" then
            match pyFloat v2 with
            | .ok r => r
            | .error _ => findPriceField row rest
          else 0
        else findPriceField row rest
      else findPriceField row rest

/-- Python `int(float(v))`: truncation toward zero. -/
def pyTrunc (r : Rat) : Int := if 0 ≤ r then r.floor else r.ceil

/-- The quantity / min-stock column scan (lines 158-178): `int(float(v))`
of the first usable matching value; a parse failure is caught and the scan
continues. -/
def findIntField (kws : List String) (row : List (String × Option String)) :
    List String → Int
  | [] => 0
  | c :: rest =>
      if kws.any (fun k => isSub k (pyLower c)) then
        let v := pyStrip (pyStr (rowGet row c))
        if v ≠ "" ∧ v ≠ "nan" ∧ v ≠ "None" then
          match pyFloat v with
          | .ok r => pyTrunc r
          | .error _ => findIntField kws row rest
        else findIntField kws row rest
      else findIntField kws row rest

/-- The description-keyword category chain of populate_silver.py lines
184-203, in source order. -/
def populateCategoryTable : List (List String × String) :=
  [ (["pneumatic", "cylinder", "valve", "festo", "smc", "connector", "fitting"],
      "Pneumatic Components"),
    (["contactor", "mcb", "mccb", "relay", "electrical", "switch"],
      "Electrical Components"),
    (["motor", "servo", "drive", "mitsubishi", "gear", "gearbox"],
      "Motors & Drives"),
    (["cable", "wire", "connector", "lapp", "phoenix"],
      "Cables & Connectors"),
    (["sensor", "sick", "omron", "reed switch", "proximity"],
      "Sensors & Instrumentation"),
    (["bearing", "sprocket", "chain", "linear", "rail"],
      "Mechanical Components"),
    (["heater", "heating", "ceramic", "ceramix"],
      "Heating Elements"),
    (["plc", "control", "programmable", "fx2n", "fx3u"],
      "PLC & Control Systems") ]

/-- First entry of a keyword table any of whose keywords occurs in `s`;
`dflt` when none matches (an if/elif chain in the source). -/
def firstKeywordMatch (s dflt : String) : List (List String × String) → String
  | [] => dflt
  | (kws, cat) :: rest =>
      if kws.any (fun k => isSub k s) then cat
      else firstKeywordMatch s dflt rest

/-- The filename-to-brand if/elif chain of populate_silver.py lines 30-108,
in source order. -/
def populateBrandTable : List (String × String) :=
  [ ("mitsubishi", "Mitsubishi"), ("festo", "FESTO"), ("smc", "SMC"),
    ("eaton", "Eaton"), ("omron", "Omron"), ("sick", "SICK"),
    ("phoenix", "Phoenix"), ("lapp", "LAPP"), ("siemens", "Siemens"),
    ("bearing", "Bearing"), ("cylinder", "Cylinder"), ("ceramix", "CERAMIX"),
    ("crydom", "CRYDOM"), ("ebm", "EBM"), ("elstien", "Elstien"),
    ("grand", "Grand Polycoat"), ("hicool", "Hicool"),
    ("indo", "Indo Electricals"), ("nvent", "Nvent Hoffman"),
    ("precision", "Precision Valve"), ("pnf", "PNF"), ("wohner", "Wohner"),
    ("autonics", "Autonics"), ("albro", "Albro"), ("apratek", "Apratek"),
    ("murr", "Murr"), ("bonfiglioli", "Bonfiglioli"), ("becker", "Becker"),
    ("sunchu", "Sunchu"), ("yyc", "YYC"), ("hetronik", "Hetronik"),
    ("flexicab", "Flexicab"), ("hrc", "HRC"), ("iac", "IAC"),
    ("lathe", "Lathe"), ("trinity", "Trinity"), ("teknic", "Teknic"),
    ("unison", "Unison"), ("pneumax", "Pneumax") ]

/-- Brand from the lower-cased filename stem; "Unknown" when nothing
matches. -/
def firstBrandMatch (filename : String) : List (String × String) → String
  | [] => "Unknown"
  | (k, b) :: rest => if isSub k filename then b else firstBrandMatch filename rest

/-- One row of one sheet through the populate_silver extraction (lines
118-216); `none` when the row is skipped for lacking both part number and
description. -/
def populateRow (brand source_file sheet_name : String) (cols : List String)
    (row : List (String × Option String)) : Option SilverFields :=
  let part_number := findTextField partKws row cols
  let description := findTextField descKws row cols
  if part_number = "" ∧ description = "" then none
  else
    some { part_number := part_number,
           description := description,
           brand := brand,
           category := firstKeywordMatch (pyLower description) "Other Components"
             populateCategoryTable,
           unit_price_inr := findPriceField row cols,
           quantity := findIntField qtyKws row cols,
           min_stock := findIntField minKws row cols,
           source_file := pathName source_file,
           source_sheet := sheet_name,
           ai_confidence := "high",
           validation_status := "validated" }

/-- All Silver field tuples extracted from one Bronze record: every
non-empty sheet, every usable row (lines 111-216). -/
def populateFile (bf : BronzeFileData) : List SilverFields :=
  let brand := firstBrandMatch (pyLower (pathStem bf.source_file)) populateBrandTable
  bf.sheets.foldl
    (fun acc sh =>
      if sh.data.isEmpty then acc
      else acc ++ sh.data.filterMap
        (populateRow brand bf.source_file sh.name (dfColumns sh.data)))
    []

/-- `populate_silver` (populate_silver.py lines 12-227): clear all existing
Silver rows (`DELETE FROM silver_inventory_items`, line 17), then re-derive
rows from every Bronze record and insert them. -/
def populate_silver (silver : List SilverRow) (bronze : List BronzeFileData) :
    List SilverRow :=
  (SilverOp.deleteAll ::
      (bronze.foldl (fun acc bf => acc ++ populateFile bf) []).map SilverOp.insert).foldl
    applySilverOp silver

/-! ### `categorize_item`
(professional_inventory_consolidator.py lines 149-225) -/

/-- PLC & Control Systems keywords (line 156; matched against the part
number only in the source). -/
def plcKws : List String :=
  ["fx", "plc", "cpu", "input", "output", "module", "controller", "fx2n",
   "fx3u", "fx5u", "programmable"]

/-- Motors & Drives keywords (line 160). -/
def motorKws : List String :=
  ["motor", "servo", "drive", "inverter", "vfd", "stepper", "ac motor",
   "dc motor", "servo motor", "stepper motor"]

/-- Pneumatic Components keywords (line 164). -/
def pneumaticKws : List String :=
  ["cylinder", "valve", "pneumatic", "festo", "smc", "pneumax", "air",
   "pneumatic cylinder", "air cylinder", "pneumatic valve"]

/-- Electrical Components keywords (line 168; the source lists `mcb` and
`mccb` twice). -/
def electricalKws : List String :=
  ["contactor", "relay", "mcb", "mccb", "fuse", "terminal", "cable",
   "switch", "breaker", "starter", "electrical", "mcb", "mccb"]

/-- Sensors & Instrumentation keywords (line 172). -/
def sensorKws : List String :=
  ["sensor", "proximity", "photo", "encoder", "sick", "omron", "inductive",
   "capacitive", "pressure sensor", "temperature sensor"]

/-- Mechanical Components keywords (line 176). -/
def mechanicalKws : List String :=
  ["bearing", "gear", "sprocket", "chain", "rail", "linear", "ball bearing",
   "roller bearing", "gearbox", "gear box", "linear rail"]

/-- Heating Elements keywords (line 180). -/
def heatingKws : List String :=
  ["heater", "heating", "ceramic", "ceramix", "heating element",
   "band heater", "cartridge heater"]

/-- Enclosures & Cabinets keywords (line 184). -/
def enclosureKws : List String :=
  ["enclosure", "cabinet", "box", "nvent", "wohner", "panel",
   "control panel", "electrical panel"]

/-- Cables & Connectors keywords (line 188). -/
def cableKws : List String :=
  ["cable", "connector", "lapp", "murrelektronik", "wire", "cable gland",
   "terminal block", "plug", "socket"]

/-- Fasteners & Hardware keywords (line 192). -/
def fastenerKws : List String :=
  ["bolt", "nut", "screw", "washer", "fastener", "hardware", "stud",
   "rivet", "pin"]

/-- Tools & Equipment keywords (line 196). -/
def toolKws : List String :=
  ["tool", "equipment", "gauge", "meter", "tester", "caliper", "micrometer"]

/-- Hydraulic Components keywords (line 200). -/
def hydraulicKws : List String :=
  ["hydraulic", "pump", "hose", "fitting", "hydraulic cylinder"]

/-- Safety Equipment keywords (line 204). -/
def safetyKws : List String :=
  ["safety", "guard", "emergency", "stop", "safety switch", "emergency stop"]

def isUpperAZ (c : Char) : Bool := 'A' ≤ c && c ≤ 'Z'

/-- `re.match(r'^[A-Z]{2,4}\d+', s)` as a Bool (line 220): since a digit is
never an uppercase letter, backtracking over the greedy quantifier reduces
to — the run of leading uppercase letters has length 2 to 4 and the next
character is a digit. -/
def matchUpper24Digit (s : String) : Bool :=
  decide (2 ≤ (s.data.takeWhile isUpperAZ).length) &&
  decide ((s.data.takeWhile isUpperAZ).length ≤ 4) &&
  (match s.data.dropWhile isUpperAZ with
   | c :: _ => c.isDigit
   | [] => false)

/-- `re.match(r'^[A-Z]{1,3}\d+[A-Z]', s)` as a Bool (line 222): 1 to 3
leading uppercase letters, at least one digit, then an uppercase letter. -/
def matchUpper13DigitUpper (s : String) : Bool :=
  decide (1 ≤ (s.data.takeWhile isUpperAZ).length) &&
  decide ((s.data.takeWhile isUpperAZ).length ≤ 3) &&
  decide (1 ≤ ((s.data.dropWhile isUpperAZ).takeWhile Char.isDigit).length) &&
  (match (s.data.dropWhile isUpperAZ).dropWhile Char.isDigit with
   | c :: _ => isUpperAZ c
   | [] => false)

/-- Body of `categorize_item` on the pre-lowered strings (the source
computes `part_lower`, `desc_lower`, `brand_lower` once at the top; the
regex fallbacks use the original-case part number). -/
def categorizeGo (pn part_lower desc_lower brand_lower : String) : String :=
  if plcKws.any (fun k => isSub k part_lower) then
    "PLC & Control Systems"
  else if motorKws.any (fun k => isSub k part_lower || isSub k desc_lower) then
    "Motors & Drives"
  else if pneumaticKws.any (fun k => isSub k part_lower || isSub k desc_lower) then
    "Pneumatic Components"
  else if electricalKws.any (fun k => isSub k part_lower || isSub k desc_lower) then
    "Electrical Components"
  else if sensorKws.any (fun k => isSub k part_lower || isSub k desc_lower) then
    "Sensors & Instrumentation"
  else if mechanicalKws.any (fun k => isSub k part_lower || isSub k desc_lower) then
    "Mechanical Components"
  else if heatingKws.any (fun k => isSub k part_lower || isSub k desc_lower) then
    "Heating Elements"
  else if enclosureKws.any (fun k => isSub k part_lower || isSub k desc_lower) then
    "Enclosures & Cabinets"
  else if cableKws.any (fun k => isSub k part_lower || isSub k desc_lower) then
    "Cables & Connectors"
  else if fastenerKws.any (fun k => isSub k part_lower || isSub k desc_lower) then
    "Fasteners & Hardware"
  else if toolKws.any (fun k => isSub k part_lower || isSub k desc_lower) then
    "Tools & Equipment"
  else if hydraulicKws.any (fun k => isSub k part_lower || isSub k desc_lower) then
    "Hydraulic Components"
  else if safetyKws.any (fun k => isSub k part_lower || isSub k desc_lower) then
    "Safety Equipment"
  else if ["mitsubishi", "siemens", "omron"].contains brand_lower then
    "PLC & Control Systems"
  else if ["festo", "smc", "pneumax"].contains brand_lower then
    "Pneumatic Components"
  else if ["eaton", "phoenix", "wohner"].contains brand_lower then
    "Electrical Components"
  else if ["sick", "omron"].contains brand_lower && !(isSub "sensor" desc_lower) then
    "Sensors & Instrumentation"
  else if ["lapp", "murrelektronik"].contains brand_lower then
    "Cables & Connectors"
  else if matchUpper24Digit pn then
    "Electrical Components"
  else if matchUpper13DigitUpper pn then
    "Mechanical Components"
  else
    "Uncategorized"

/-- `categorize_item` (professional_inventory_consolidator.py lines
149-225). -/
def categorize_item (part_number description brand : String) : String :=
  categorizeGo part_number (pyLower part_number) (pyLower description)
    (pyLower brand)

/-- The claim's ordered category table, written from the spec's words for
the C8 refinement: (category, keywords, whether the description is
consulted).  The code consults the description for every category except
PLC & Control Systems. -/
def specCategoryTable : List (String × List String × Bool) :=
  [ ("PLC & Control Systems", plcKws, false),
    ("Motors & Drives", motorKws, true),
    ("Pneumatic Components", pneumaticKws, true),
    ("Electrical Components", electricalKws, true),
    ("Sensors & Instrumentation", sensorKws, true),
    ("Mechanical Components", mechanicalKws, true),
    ("Heating Elements", heatingKws, true),
    ("Enclosures & Cabinets", enclosureKws, true),
    ("Cables & Connectors", cableKws, true),
    ("Fasteners & Hardware", fastenerKws, true),
    ("Tools & Equipment", toolKws, true),
    ("Hydraulic Components", hydraulicKws, true),
    ("Safety Equipment", safetyKws, true) ]

/-- First category of an ordered table one of whose keywords occurs in the
lowered part number — or, when the entry's flag allows it, in the lowered
description. -/
def specFirstMatch (pl dl : String) :
    List (String × List String × Bool) → Option String
  | [] => none
  | (cat, kws, useDesc) :: rest =>
      if kws.any (fun k => isSub k pl || (useDesc && isSub k dl)) then some cat
      else specFirstMatch pl dl rest

theorem head_insertionSort_eq_firstMax (l : List Item) :
    (sortByPriceDesc l).head? = firstMax l := by
  induction l with
  | nil => rfl
  | cons a l ih =>
      unfold sortByPriceDesc at ih ⊢
      rw [List.insertionSort]
      rcases h : (l.insertionSort fun a b => b.price_inr ≤ a.price_inr) with _ | ⟨b, t⟩
      · rw [h] at ih
        rw [h]
        unfold firstMax
        rw [← ih]
        rfl
      · rw [h] at ih
        rw [h]
        simp only [List.head?] at ih
        unfold firstMax
        rw [← ih]
        by_cases hle : b.price_inr ≤ a.price_inr
        · simp [List.orderedInsert, hle, not_lt.mpr hle]
        · simp [List.orderedInsert, hle, lt_of_not_le hle]

theorem resolveGroup_eq_firstMax (g : List Item) :
    resolveGroup g = firstMax g := by
  match g with
  | [] => rfl
  | [x] => rfl
  | a :: b :: t =>
      show (sortByPriceDesc (a :: b :: t)).head? = _
      exact head_insertionSort_eq_firstMax _

theorem firstMax_eq_none {g : List Item} (h : firstMax g = none) : g = [] := by
  cases g with
  | nil => rfl
  | cons a l =>
      unfold firstMax at h
      cases hl : firstMax l <;> rw [hl] at h <;> simp at h
      split at h <;> simp at h

theorem firstMax_isSome (a : Item) (l : List Item) :
    ∃ w, firstMax (a :: l) = some w := by
  unfold firstMax
  cases hl : firstMax l with
  | none => exact ⟨a, rfl⟩
  | some v =>
      by_cases hp : a.price_inr < v.price_inr
      · exact ⟨v, show (if a.price_inr < v.price_inr then some v else some a) = some v by
          rw [if_pos hp]⟩
      · exact ⟨a, show (if a.price_inr < v.price_inr then some v else some a) = some a by
          rw [if_neg hp]⟩

/-- Everything the survivor selection guarantees: the selected element is a
member of the group, its price is maximal, and every member listed before it
has strictly smaller price (first-seen tie-break). -/
theorem firstMax_spec :
    ∀ (g : List Item) (w : Item), firstMax g = some w →
      w ∈ g ∧ (∀ y ∈ g, y.price_inr ≤ w.price_inr) ∧
      ∃ l1 l2, g = l1 ++ w :: l2 ∧ ∀ y ∈ l1, y.price_inr < w.price_inr := by
  intro g
  induction g with
  | nil => intro w h; simp [firstMax] at h
  | cons a l ih =>
      intro w h
      unfold firstMax at h
      cases hl : firstMax l with
      | none =>
          rw [hl] at h
          have hnil := firstMax_eq_none hl
          subst hnil
          cases h
          exact ⟨List.mem_singleton.mpr rfl, by simp, [], [], rfl, by simp⟩
      | some v =>
          rw [hl] at h
          replace h : (if a.price_inr < v.price_inr then some v else some a) = some w := h
          obtain ⟨hv_mem, hv_max, l1, l2, hdec, hl1⟩ := ih v hl
          by_cases hp : a.price_inr < v.price_inr
          · rw [if_pos hp] at h
            cases h
            refine ⟨List.mem_cons_of_mem a hv_mem, ?_, a :: l1, l2,
              by rw [hdec, List.cons_append], ?_⟩
            · intro y hy
              rcases List.mem_cons.mp hy with hy | hy
              · exact hy ▸ le_of_lt hp
              · exact hv_max y hy
            · intro y hy
              rcases List.mem_cons.mp hy with hy | hy
              · exact hy ▸ hp
              · exact hl1 y hy
          · rw [if_neg hp] at h
            cases h
            have hva : v.price_inr ≤ a.price_inr := not_lt.mp hp
            refine ⟨List.mem_cons_self a l, ?_, [], l, rfl, by simp⟩
            intro y hy
            rcases List.mem_cons.mp hy with hy | hy
            · exact hy ▸ le_refl _
            · exact le_trans (hv_max y hy) hva

/-- Group contents invariant: `addToGroup` only ever appends the inserted
item to the group of the key it was inserted under. -/
theorem addToGroup_inv {C : String → Item → Prop} :
    ∀ (gs : List (String × List Item)) (key : String) (item : Item),
      (∀ p ∈ gs, ∀ y ∈ p.2, C p.1 y) → C key item →
      ∀ p ∈ addToGroup gs key item, ∀ y ∈ p.2, C p.1 y := by
  intro gs
  induction gs with
  | nil =>
      intro key item _ hi p hp y hy
      simp only [addToGroup, List.mem_singleton] at hp
      subst hp
      simp only [List.mem_singleton] at hy
      subst hy
      exact hi
  | cons hd rest ih =>
      obtain ⟨k, g⟩ := hd
      intro key item h hi p hp y hy
      unfold addToGroup at hp
      by_cases hk : k = key
      · subst hk
        rw [if_pos rfl] at hp
        rcases List.mem_cons.mp hp with hp | hp
        · subst hp
          rcases List.mem_append.mp hy with hy | hy
          · exact h (k, g) (List.mem_cons_self _ _) y hy
          · simp only [List.mem_singleton] at hy
            subst hy
            exact hi
        · exact h p (List.mem_cons_of_mem _ hp) y hy
      · rw [if_neg hk] at hp
        rcases List.mem_cons.mp hp with hp | hp
        · subst hp
          exact h (k, g) (List.mem_cons_self _ _) y hy
        · exact ih key item (fun q hq => h q (List.mem_cons_of_mem _ hq)) hi p hp y hy

theorem foldl_addToGroup_inv {C : String → Item → Prop} (item : Item) :
    ∀ (keys : List String) (gs : List (String × List Item)),
      (∀ p ∈ gs, ∀ y ∈ p.2, C p.1 y) → (∀ k ∈ keys, C k item) →
      ∀ p ∈ keys.foldl (fun a k => addToGroup a k item) gs, ∀ y ∈ p.2, C p.1 y := by
  intro keys
  induction keys with
  | nil => intro gs h _ p hp; exact h p hp
  | cons k ks ih =>
      intro gs h hk p hp
      simp only [List.foldl_cons] at hp
      exact ih _ (addToGroup_inv gs k item h (hk k (List.mem_cons_self _ _)))
        (fun k' h' => hk k' (List.mem_cons_of_mem _ h')) p hp

theorem buildGroupsAux_inv {C : String → Item → Prop} :
    ∀ (l : List Item) (gs : List (String × List Item)),
      (∀ p ∈ gs, ∀ y ∈ p.2, C p.1 y) →
      (∀ x ∈ l, ∀ k ∈ keysOf x, C k x) →
      ∀ p ∈ buildGroupsAux gs l, ∀ y ∈ p.2, C p.1 y := by
  intro l
  induction l with
  | nil => intro gs h _ p hp; exact h p hp
  | cons x xs ih =>
      intro gs h hl p hp
      unfold buildGroupsAux at hp
      refine ih _ ?_ (fun x' hx' => hl x' (List.mem_cons_of_mem _ hx')) p hp
      exact foldl_addToGroup_inv x (keysOf x) gs h
        (fun k hk => hl x (List.mem_cons_self _ _) k hk)

/-- Every member of every built dedup group comes from the input list. -/
theorem buildGroups_mem_sub {L : List Item} {p : String × List Item}
    (hp : p ∈ buildGroups L) : ∀ y ∈ p.2, y ∈ L :=
  buildGroupsAux_inv (C := fun _ y => y ∈ L) L [] (by simp)
    (fun x hx _ _ => hx) p hp

/-- Every member of the group of key `k` really has `k` among its dedup
keys. -/
theorem buildGroups_key_mem {L : List Item} {p : String × List Item}
    (hp : p ∈ buildGroups L) : ∀ y ∈ p.2, p.1 ∈ keysOf y :=
  buildGroupsAux_inv (C := fun k y => k ∈ keysOf y) L [] (by simp)
    (fun _ _ k hk => hk) p hp

/-- C1, counterexample: deduplicating the spec's two-item example does NOT
yield a one-element output in which the surviving item appears exactly once.
The price-150 item wins both the combined key group and the part-number key
group and is appended once per group, so the output is `[c1b, c1b]`:
length 2, and the surviving item is contained twice. -/
theorem dedup_example_two_copies :
    deduplicate_items [c1a, c1b] = [c1b, c1b] ∧
    (deduplicate_items [c1a, c1b]).length ≠ 1 ∧
    (deduplicate_items [c1a, c1b]).count c1b = 2 ∧
    c1b.price_inr = 150 := by decide

/-- C1, amended: on the spec's example the output is the price-150 item
listed twice (once per key group it wins, the price-100 item excluded); in
general the output of `deduplicate_items` consists exactly of the per-group
winners: every output item is a member of some group built for one of its
own keys and has maximal price there, and conversely every group winner
appears in the output.  (An item that wins no group it belongs to is
excluded, but a winner appears once per group it wins, not exactly once.) -/
theorem dedup_winner_characterization :
    deduplicate_items [c1a, c1b] = [c1b, c1b] ∧
    (∀ (L : List Item) (x : Item), x ∈ deduplicate_items L →
      ∃ k g, (k, g) ∈ buildGroups L ∧ x ∈ g ∧ k ∈ keysOf x ∧
        resolveGroup g = some x ∧ ∀ y ∈ g, y.price_inr ≤ x.price_inr) ∧
    (∀ (L : List Item) (k : String) (g : List Item) (x : Item),
      (k, g) ∈ buildGroups L → resolveGroup g = some x →
        x ∈ deduplicate_items L) := by
  refine ⟨by decide, ?_, ?_⟩
  · intro L x hx
    unfold deduplicate_items at hx
    rcases List.mem_filterMap.mp hx with ⟨⟨k, g⟩, hp, hres⟩
    have hfm := firstMax_spec g x (by rw [← resolveGroup_eq_firstMax]; exact hres)
    exact ⟨k, g, hp, hfm.1, buildGroups_key_mem hp x hfm.1, hres, hfm.2.1⟩
  · intro L k g x hg hres
    unfold deduplicate_items
    exact List.mem_filterMap.mpr ⟨(k, g), hg, hres⟩

/-- Witness for `dedup_winner_characterization` at the concrete example:
the surviving item is in the output, and the characterization produces its
winning group. -/
theorem dedup_winner_characterization_witness :
    c1b ∈ deduplicate_items [c1a, c1b] ∧
    ∃ k g, (k, g) ∈ buildGroups [c1a, c1b] ∧ c1b ∈ g ∧ k ∈ keysOf c1b ∧
      resolveGroup g = some c1b ∧ ∀ y ∈ g, y.price_inr ≤ c1b.price_inr :=
  ⟨by decide, dedup_winner_characterization.2.1 [c1a, c1b] c1b (by decide)⟩

/-- C5: for every dedup key-group with at least two members, the selected
survivor is a member of the group whose `price_inr` is greater than or equal
to that of every other member, and every member listed (i.e. first seen)
before the survivor has strictly smaller price — so among members sharing
the maximal price the first-seen one is kept. -/
theorem dedup_group_winner_max (L : List Item) (k : String) (g : List Item)
    (hg : (k, g) ∈ buildGroups L) (hlen : 2 ≤ g.length) :
    ∃ w, resolveGroup g = some w ∧ w ∈ g ∧
      (∀ y ∈ g, y.price_inr ≤ w.price_inr) ∧
      ∃ l1 l2, g = l1 ++ w :: l2 ∧ ∀ y ∈ l1, y.price_inr < w.price_inr := by
  match g, hlen with
  | a :: l, _ =>
      obtain ⟨w, hw⟩ := firstMax_isSome a l
      refine ⟨w, ?_, firstMax_spec _ w hw⟩
      rw [resolveGroup_eq_firstMax]
      exact hw

/-- Witness for `dedup_group_winner_max`: the combined-key group of the
spec's example has two members and the price-150 item wins it. -/
theorem dedup_group_winner_max_witness :
    ("x1_widget", [c1a, c1b]) ∈ buildGroups [c1a, c1b] ∧
    2 ≤ ([c1a, c1b] : List Item).length ∧
    ∃ w, resolveGroup [c1a, c1b] = some w ∧ w ∈ [c1a, c1b] ∧
      (∀ y ∈ [c1a, c1b], y.price_inr ≤ w.price_inr) ∧
      ∃ l1 l2, [c1a, c1b] = l1 ++ w :: l2 ∧ ∀ y ∈ l1, y.price_inr < w.price_inr :=
  ⟨by decide, by decide,
    dedup_group_winner_max [c1a, c1b] "x1_widget" [c1a, c1b] (by decide) (by decide)⟩

/-- C10: deduplication never invents or edits data — every item in the
output of `deduplicate_items` is an element of its input list (the very same
record, so every field — part number, description, brand, price, quantity,
min stock, category and source fields — is unchanged; nothing from discarded
duplicates is merged in). -/
theorem dedup_subset_input (L : List Item) (x : Item)
    (hx : x ∈ deduplicate_items L) : x ∈ L := by
  unfold deduplicate_items at hx
  rcases List.mem_filterMap.mp hx with ⟨⟨k, g⟩, hp, hres⟩
  have hfm := firstMax_spec g x (by rw [← resolveGroup_eq_firstMax]; exact hres)
  exact buildGroups_mem_sub hp x hfm.1

/-- Witness for `dedup_subset_input` at the concrete example. -/
theorem dedup_subset_input_witness :
    c1b ∈ deduplicate_items [c1a, c1b] ∧ c1b ∈ [c1a, c1b] :=
  ⟨by decide, dedup_subset_input [c1a, c1b] c1b (by decide)⟩

/-- C3: `clean_price` is total — for every input (missing, empty, purely
alphabetic, parenthesized-negative, `-`-delimited range, anything else) it
returns a value and never lets an exception escape; a range returns the
maximum of its two bounds, a parenthesized value is negative, and the
spec's four examples evaluate as stated. -/
theorem clean_price_total :
    (∀ raw : Option String, ∃ r : Rat, clean_price raw = .ok r) ∧
    clean_price (some "₹1,200") = .ok 1200 ∧
    clean_price (some "100-150") = .ok 150 ∧
    clean_price (some "(50)") = .ok (-50) ∧
    clean_price (some "abc") = .ok 0 ∧
    clean_price none = .ok 0 ∧
    clean_price (some "") = .ok 0 := by
  refine ⟨?_, by rfl, by rfl, by rfl, by rfl, by rfl, by rfl⟩
  intro raw
  cases raw with
  | none => exact ⟨0, rfl⟩
  | some s0 =>
      unfold clean_price
      repeat' split
      all_goals exact ⟨_, rfl⟩

/-- Any property holding of every freshly inserted row holds of every row of
every reachable `silver_inventory_items` state (rows are only ever created
by INSERT, which computes the generated columns, or removed wholesale). -/
theorem foldl_silver_inv (P : SilverRow → Prop)
    (hins : ∀ f, P (mkSilverRow f)) :
    ∀ (ops : List SilverOp) (s : List SilverRow), (∀ r ∈ s, P r) →
      ∀ r ∈ ops.foldl applySilverOp s, P r := by
  intro ops
  induction ops with
  | nil => intro s h r hr; exact h r hr
  | cons op rest ih =>
      intro s h r hr
      simp only [List.foldl_cons] at hr
      refine ih _ ?_ r hr
      cases op with
      | insert f =>
          intro r' hr'
          rcases List.mem_append.mp hr' with h' | h'
          · exact h r' h'
          · simp only [List.mem_singleton] at h'
            subst h'
            exact hins f
      | deleteAll =>
          intro r' hr'
          simp [applySilverOp] at hr'

/-- C7: in every reachable state of `silver_inventory_items`,
`total_value_inr = unit_price_inr * quantity` exactly — the column is
`GENERATED ALWAYS AS (unit_price_inr * quantity) STORED`, recomputed at
every insert, and no write path can store it independently. -/
theorem silver_total_value_invariant (ops : List SilverOp) (row : SilverRow)
    (hrow : row ∈ runSilverOps ops) :
    row.total_value_inr = row.unit_price_inr * (row.quantity : Rat) :=
  foldl_silver_inv
    (fun r => r.total_value_inr = r.unit_price_inr * (r.quantity : Rat))
    (fun _ => rfl) ops [] (by simp) row hrow

/-- Witness for `silver_total_value_invariant`: after inserting the example
fields, the stored row satisfies the invariant. -/
theorem silver_total_value_invariant_witness :
    mkSilverRow sf0 ∈ runSilverOps [.insert sf0] ∧
    (mkSilverRow sf0).total_value_inr =
      (mkSilverRow sf0).unit_price_inr * ((mkSilverRow sf0).quantity : Rat) :=
  ⟨List.mem_singleton.mpr rfl,
    silver_total_value_invariant [.insert sf0] (mkSilverRow sf0)
      (List.mem_singleton.mpr rfl)⟩

/-- C2, failing-input evaluation (claim right, code wrong): an item with
`quantity = 0` and `min_stock = 5` receives stock status "Low Stock", not
"Out of Stock" — the SQL CASE tests `quantity <= min_stock` before
`quantity = 0`, and the Excel writer of `create_ai_validated_excel` has no
out-of-stock branch at all.  The final conjunct shows the "Out of Stock"
label is unreachable for every non-negative `min_stock`, contradicting the
repository's own `gold_inventory_summary` view and Slack-bot summaries,
which count rows with `stock_status = 'Out of Stock'`. -/
theorem stock_status_zero_quantity :
    stock_status 0 5 = "Low Stock" ∧
    ai_stock_status 0 5 = "Low Stock" ∧
    (mkSilverRow { sf0 with quantity := 0, min_stock := 5 }).stock_status =
      "Low Stock" ∧
    (∀ (q : Int) (m : Nat), stock_status q (m : Int) ≠ "Out of Stock") := by
  refine ⟨by decide, by decide, by decide, ?_⟩
  intro q m
  unfold stock_status
  by_cases h1 : q ≤ (m : Int)
  · rw [if_pos h1]
    decide
  · rw [if_neg h1, if_neg ?_]
    · decide
    · intro h0
      exact h1 (h0 ▸ Int.ofNat_nonneg m)

/-- C4: Bronze ingestion is idempotent for file content.  If the content
hash of a file is already present in the Bronze store, ingesting the file
is a no-op (the store — including the existing record — is returned
unchanged); and ingesting a fresh file twice succeeds, leaves the store of
the first ingestion unchanged, and yields exactly one record for that
content hash. -/
theorem bronze_ingest_idempotent :
    (∀ (s : List BronzeRecord) (f : SrcFile) (bytes : String),
      f.content = some bytes →
      s.any (fun r => r.data_hash == DataHash.ofContent bytes) = true →
      ingest_excel_files s [f] = .ok s) ∧
    (∀ (s : List BronzeRecord) (f : SrcFile) (bytes : String),
      f.content = some bytes →
      bronzeSkipPatterns.any
        (fun p => isSub p (pyLower (pathName f.path))) = false →
      s.any (fun r => r.data_hash == DataHash.ofContent bytes) = false →
      ∃ s1, ingest_excel_files s [f] = .ok s1 ∧
        ingest_excel_files s1 [f] = .ok s1 ∧
        countHash s1 (DataHash.ofContent bytes) = 1 ∧
        countHash s (DataHash.ofContent bytes) = 0) := by
  constructor
  · intro s f bytes hc hhash
    by_cases hskip :
        (bronzeSkipPatterns.any fun p => isSub p (pyLower (pathName f.path))) = true
    all_goals simp [ingest_excel_files, ingestOne, hc, hhash, hskip]
  · intro s f bytes hc hskip hhash
    have hfil : s.filter (fun r => r.data_hash == DataHash.ofContent bytes) = [] :=
      List.filter_eq_nil_iff.mpr
        (fun r hr => by simpa using List.any_eq_false.mp hhash r hr)
    have hcount0 : countHash s (DataHash.ofContent bytes) = 0 := by
      unfold countHash
      rw [hfil]
      rfl
    refine ⟨s ++ [⟨f.path, DataHash.ofContent bytes, "ingested"⟩], ?_, ?_, ?_, hcount0⟩
    · simp [ingest_excel_files, ingestOne, hc, hskip, hhash]
    · simp [ingest_excel_files, ingestOne, hc, hskip, List.any_append]
    · unfold countHash
      rw [List.filter_append, hfil]
      simp

/-- Witness for `bronze_ingest_idempotent` (second conjunct) at a concrete
fresh file and empty store. -/
theorem bronze_ingest_idempotent_witness :
    goodFile.content = some "FESTO-BYTES" ∧
    bronzeSkipPatterns.any
      (fun p => isSub p (pyLower (pathName goodFile.path))) = false ∧
    ([] : List BronzeRecord).any
      (fun r => r.data_hash == DataHash.ofContent "FESTO-BYTES") = false ∧
    ∃ s1, ingest_excel_files [] [goodFile] = .ok s1 ∧
      ingest_excel_files s1 [goodFile] = .ok s1 ∧
      countHash s1 (DataHash.ofContent "FESTO-BYTES") = 1 ∧
      countHash ([] : List BronzeRecord) (DataHash.ofContent "FESTO-BYTES") = 0 :=
  ⟨rfl, by decide, by decide,
    bronze_ingest_idempotent.2 [] goodFile "FESTO-BYTES" rfl (by decide) (by decide)⟩

/-- C9, failing-input evaluation (claim right, code wrong): the first
ingestion of an unreadable file is handled — the error handler records an
error row keyed by the md5 of the file PATH — but ingesting the same
unreadable file again re-executes that handler INSERT with the same
`data_hash`, violating the UNIQUE constraint; the resulting exception is
raised inside the `except` block, escapes the ingestion loop, and aborts
the run before any report is produced. -/
theorem ingest_unreadable_twice_crashes :
    ingest_excel_files [] [badFile] = .ok [badRecord] ∧
    ingest_excel_files [badRecord] [badFile] =
      .error "UNIQUE constraint failed: bronze_inventory_raw.data_hash" :=
  ⟨rfl, rfl⟩

/-- C6, counterexample: `deduplicate_items` applied to its own output does
not in general return that output unchanged.  With `z = ("k","d",0)`,
`w = ("k","e",5)`, `x = ("k","d",5)` the first pass yields `[x, w, w]`
(`w` wins the shared part-number group because it precedes `x` in the
input), but a second pass yields `[x, x, w]` (in the re-grouped list `x`
now precedes `w`, and wins the price tie) — so `deduplicate_items` is not
idempotent for every input item list. -/
theorem dedup_not_idempotent :
    deduplicate_items (deduplicate_items [c6z, c6w, c6x]) ≠
      deduplicate_items [c6z, c6w, c6x] := by decide

/-- C6, amended: a full Silver rebuild truncates (`DELETE FROM
silver_inventory_items`) and regenerates from Bronze, so re-running
`populate_silver` on unchanged Bronze data produces an identical Silver
set — the result does not depend on the prior Silver state at all, and the
rebuild is idempotent; `deduplicate_items` itself, however, is not
idempotent on every input list (see the counterexample). -/
theorem populate_silver_rebuild_identical :
    (∀ (bronze : List BronzeFileData) (s s' : List SilverRow),
      populate_silver s bronze = populate_silver s' bronze) ∧
    (∀ (bronze : List BronzeFileData) (s : List SilverRow),
      populate_silver (populate_silver s bronze) bronze =
        populate_silver s bronze) :=
  ⟨fun _ _ _ => rfl, fun _ _ => rfl⟩

/-- C8, counterexample: a keyword appearing only in the description does
NOT suffice for PLC & Control Systems — the first branch of
`categorize_item` tests the part number only.  The input
`(part_number="", description="plc", brand="")` carries the PLC keyword
"plc" in its description, matches no other keyword set, and is returned as
"Uncategorized". -/
theorem categorize_desc_plc_counterexample :
    categorize_item "" "plc" "" = "Uncategorized" ∧
    "plc" ∈ plcKws ∧
    isSub "plc" (pyLower "plc") = true ∧
    categorize_item "" "plc" "" ≠ "PLC & Control Systems" := by decide

/-- C8, amended: `categorize_item` returns the first category, in the
declared priority order, whose keyword set matches — where every category
matches on a keyword occurring in the lower-cased part number OR
description, EXCEPT PLC & Control Systems, which consults the part number
only (a description keyword suffices for the other twelve categories but
not for PLC & Control Systems). -/
theorem categorize_first_match (pn d b c : String)
    (h : specFirstMatch (pyLower pn) (pyLower d) specCategoryTable = some c) :
    categorize_item pn d b = c := by
  simp only [specFirstMatch, specCategoryTable, Bool.true_and, Bool.false_and,
    Bool.or_false] at h
  unfold categorize_item categorizeGo
  by_cases h1 : (plcKws.any fun k => isSub k (pyLower pn)) = true
  · simp only [h1, if_true] at h ⊢
    exact Option.some.inj h
  simp only [h1, if_false] at h ⊢
  by_cases h2 :
      (motorKws.any fun k => isSub k (pyLower pn) || isSub k (pyLower d)) = true
  · simp only [h2, if_true] at h ⊢
    exact Option.some.inj h
  simp only [h2, if_false] at h ⊢
  by_cases h3 :
      (pneumaticKws.any fun k => isSub k (pyLower pn) || isSub k (pyLower d)) = true
  · simp only [h3, if_true] at h ⊢
    exact Option.some.inj h
  simp only [h3, if_false] at h ⊢
  by_cases h4 :
      (electricalKws.any fun k => isSub k (pyLower pn) || isSub k (pyLower d)) = true
  · simp only [h4, if_true] at h ⊢
    exact Option.some.inj h
  simp only [h4, if_false] at h ⊢
  by_cases h5 :
      (sensorKws.any fun k => isSub k (pyLower pn) || isSub k (pyLower d)) = true
  · simp only [h5, if_true] at h ⊢
    exact Option.some.inj h
  simp only [h5, if_false] at h ⊢
  by_cases h6 :
      (mechanicalKws.any fun k => isSub k (pyLower pn) || isSub k (pyLower d)) = true
  · simp only [h6, if_true] at h ⊢
    exact Option.some.inj h
  simp only [h6, if_false] at h ⊢
  by_cases h7 :
      (heatingKws.any fun k => isSub k (pyLower pn) || isSub k (pyLower d)) = true
  · simp only [h7, if_true] at h ⊢
    exact Option.some.inj h
  simp only [h7, if_false] at h ⊢
  by_cases h8 :
      (enclosureKws.any fun k => isSub k (pyLower pn) || isSub k (pyLower d)) = true
  · simp only [h8, if_true] at h ⊢
    exact Option.some.inj h
  simp only [h8, if_false] at h ⊢
  by_cases h9 :
      (cableKws.any fun k => isSub k (pyLower pn) || isSub k (pyLower d)) = true
  · simp only [h9, if_true] at h ⊢
    exact Option.some.inj h
  simp only [h9, if_false] at h ⊢
  by_cases h10 :
      (fastenerKws.any fun k => isSub k (pyLower pn) || isSub k (pyLower d)) = true
  · simp only [h10, if_true] at h ⊢
    exact Option.some.inj h
  simp only [h10, if_false] at h ⊢
  by_cases h11 :
      (toolKws.any fun k => isSub k (pyLower pn) || isSub k (pyLower d)) = true
  · simp only [h11, if_true] at h ⊢
    exact Option.some.inj h
  simp only [h11, if_false] at h ⊢
  by_cases h12 :
      (hydraulicKws.any fun k => isSub k (pyLower pn) || isSub k (pyLower d)) = true
  · simp only [h12, if_true] at h ⊢
    exact Option.some.inj h
  simp only [h12, if_false] at h ⊢
  by_cases h13 :
      (safetyKws.any fun k => isSub k (pyLower pn) || isSub k (pyLower d)) = true
  · simp only [h13, if_true] at h ⊢
    exact Option.some.inj h
  simp only [h13, if_false] at h ⊢
  cases h

/-- Witness for `categorize_first_match`: an input whose description's
"contactor" keyword yields Electrical Components, through both the spec
table and `categorize_item`. -/
theorem categorize_first_match_witness :
    specFirstMatch (pyLower "XTCD9-11") (pyLower "contactor 9A")
      specCategoryTable = some "Electrical Components" ∧
    categorize_item "XTCD9-11" "contactor 9A" "Eaton" = "Electrical Components" :=
  ⟨by decide,
    categorize_first_match "XTCD9-11" "contactor 9A" "Eaton"
      "Electrical Components" (by decide)⟩

end MachInv
